import Mathlib

/-!
Shallow embedding of the kpub repository core (session monitor, chat
supervisor, resilient Dropbox uploader) and proofs about the behavioural
claims of its specification.

Each definition mirrors one Go function or type of the repository:
  - `Peer`, `peerKey`                       — internal/monitor/monitor.go
  - `processDocument`, `processFile`        — internal/monitor/monitor.go
  - `AddChat`, `RemoveChat` registry model  — internal/monitor/monitor.go
  - `ResolvedChatConfig`, format merging    — internal/config/config.go
  - `reload`, `chatConfigEqual`             — internal/supervisor
  - `Upload`, `isUnauthorized`, `refreshToken` — internal/storage (dropbox)
Effects (network, disk, subprocess) are passed in as explicit outcome
environments; message sends and registry operations are returned as traces.
-/

namespace Kpub

/-- The peer classes handled by `peerKey` in monitor.go: `tg.PeerUser`,
`tg.PeerChat`, `tg.PeerChannel`.  IDs are int64 in the Go client, embedded
as `Int`. -/
inductive Peer where
  | user (userID : Int)
  | chat (chatID : Int)
  | channel (channelID : Int)
deriving DecidableEq, Repr

/-- monitor.go `peerKey`: returns `"u<id>"` for users and `"c<id>"` for
chats **and** channels (the Go code formats both with the `"c%d"` pattern). -/
def peerKey : Peer → String
  | .user p => "u" ++ toString p
  | .chat p => "c" ++ toString p
  | .channel p => "c" ++ toString p

/-- C1 (counterexample): the claim that no `PeerChat` with chat ID n and
`PeerChannel` with channel ID n map to the same registry key is false: both
map to `"c1"` at n = 1. -/
theorem peerKey_chat_channel_collide : peerKey (Peer.chat 1) = peerKey (Peer.channel 1) := rfl

/-- C1 (amended): `peerKey` separates the user address space from the
chat/channel address space (a `"u"`-keyed entry never collides with a
`"c"`-keyed one), but basic groups and channels share one address space:
`PeerChat` n and `PeerChannel` n always map to the same key. -/
theorem peerKey_address_spaces (u n m : Int) :
    (peerKey (Peer.user u) ≠ peerKey (Peer.chat n) ∧
     peerKey (Peer.user u) ≠ peerKey (Peer.channel n)) ∧
    peerKey (Peer.chat m) = peerKey (Peer.channel m) := by
  refine ⟨⟨?_, ?_⟩, rfl⟩ <;>
    · intro h
      have h2 := congrArg String.data h
      simp [peerKey, String.data_append] at h2

/-- Go `filepath.Ext`, as used by `processDocument`: scan backwards from the
end of the path until a path separator; return the suffix from the last dot
of the final element, or `""` if there is none. The first argument is the
reversed character list still to scan, the second the characters already
passed (in forward order). -/
def extAux : List Char → List Char → String
  | [], _ => ""
  | c :: rest, acc =>
    if c = '/' then ""
    else if c = '.' then ⟨'.' :: acc⟩
    else extAux rest (c :: acc)

/-- Go `filepath.Ext` on a path string. -/
def Ext (path : String) : String := extAux path.data.reverse []

/-- Go `filepath.Base`, as used by `processFile` for the remote name:
empty path gives `"."`; trailing separators are stripped; all-separator
paths give `"/"`; otherwise the last path element. -/
def Base (path : String) : String :=
  if path = "" then "."
  else
    let rev := path.data.reverse.dropWhile (· = '/')
    if rev = [] then "/"
    else ⟨(rev.takeWhile (· ≠ '/')).reverse⟩

/-- The "processing started" status text of `processFile`
(`"[kpub] Processing '%s' from %s..."`). -/
def processingMsg (fileName chatHandle : String) : String :=
  "[kpub] Processing '" ++ fileName ++ "' from " ++ chatHandle ++ "..."

/-- The "failed" status text of `processFile`
(`"[kpub] Failed to process '%s'."`). -/
def failedMsg (fileName : String) : String :=
  "[kpub] Failed to process '" ++ fileName ++ "'."

/-- The "success" status text of `processFile`
(`"[kpub] Done! '%s' is ready on your Kobo."`). -/
def doneMsg (remoteName : String) : String :=
  "[kpub] Done! '" ++ remoteName ++ "' is ready on your Kobo."

/-- Outcomes of the effectful steps of one `processFile` run, passed in as
an environment: the two `os.MkdirAll` calls, the download, the conversion
(returning the produced kepub path on success), and the upload. -/
structure PipeEnv where
  mkdirDownloadOk : Bool
  mkdirConvertedOk : Bool
  downloadErr : Option String
  convertResult : Except String String
  uploadErr : Option String
deriving Repr

/-- monitor.go `processFile`: create the working directories (returning with
no status message if either fails), send the "processing" message, then
download, convert and upload in order, sending exactly one "failed" message
naming the original file on the first stage error, or the "success" message
naming the converted file's base name. Returns (succeeded, sent messages). -/
def processFile (env : PipeEnv) (fileName chatHandle : String) : Bool × List String :=
  if ¬env.mkdirDownloadOk then (false, [])
  else if ¬env.mkdirConvertedOk then (false, [])
  else
    let m0 := processingMsg fileName chatHandle
    match env.downloadErr with
    | some _ => (false, [m0, failedMsg fileName])
    | none =>
      match env.convertResult with
      | .error _ => (false, [m0, failedMsg fileName])
      | .ok kepubPath =>
        let remoteName := Base kepubPath
        match env.uploadErr with
        | some _ => (false, [m0, failedMsg fileName])
        | none => (true, [m0, doneMsg remoteName])

lemma processingMsg_ne_failedMsg (f h g : String) : processingMsg f h ≠ failedMsg g := by
  intro hEq
  have h2 := congrArg String.data hEq
  simp [processingMsg, failedMsg, String.data_append] at h2

lemma doneMsg_ne_failedMsg (r g : String) : doneMsg r ≠ failedMsg g := by
  intro hEq
  have h2 := congrArg String.data hEq
  simp [doneMsg, failedMsg, String.data_append] at h2

lemma doneMsg_ne_processingMsg (r f h : String) : doneMsg r ≠ processingMsg f h := by
  intro hEq
  have h2 := congrArg String.data hEq
  simp [doneMsg, processingMsg, String.data_append] at h2

/-- C3 (counterexample): a pipeline execution that fails because the
download directory cannot be created is a terminal failure that sends no
"failed" status message at all, refuting "exactly one failed message for
every terminal failure at any stage". -/
theorem processFile_mkdir_failure_silent :
    (processFile ⟨false, true, none, Except.ok "/conv/x.kepub.epub", none⟩ "book.epub" "@c").1 = false ∧
    ((processFile ⟨false, true, none, Except.ok "/conv/x.kepub.epub", none⟩ "book.epub" "@c").2.count
      (failedMsg "book.epub")) = 0 := by
  constructor <;> rfl

/-- C3 (amended): once the working directories are created, every terminal
pipeline failure (download, convert or upload stage) sends exactly one
"failed" status message naming the file, and every success sends exactly one
"success" message and no "failed" message; a directory-creation failure,
however, terminates the pipeline with no status message at all. -/
theorem processFile_status_messages (env : PipeEnv) (f h : String) :
    ((env.mkdirDownloadOk = false ∨ env.mkdirConvertedOk = false) →
      processFile env f h = (false, [])) ∧
    (env.mkdirDownloadOk = true → env.mkdirConvertedOk = true →
      (((processFile env f h).1 = false →
        (processFile env f h).2 = [processingMsg f h, failedMsg f] ∧
        (processFile env f h).2.count (failedMsg f) = 1) ∧
       ((processFile env f h).1 = true →
        ∃ k, env.convertResult = Except.ok k ∧
          (processFile env f h).2 = [processingMsg f h, doneMsg (Base k)] ∧
          (processFile env f h).2.count (doneMsg (Base k)) = 1 ∧
          (processFile env f h).2.count (failedMsg f) = 0))) := by
  obtain ⟨md, mc, dl, cv, up⟩ := env
  constructor
  · rintro (rfl | rfl) <;> simp [processFile]
  · rintro rfl rfl
    constructor
    · intro hFail
      have hcnt : ∀ m : List String, m = [processingMsg f h, failedMsg f] →
          m.count (failedMsg f) = 1 := by
        rintro _ rfl
        simp [List.count_cons, processingMsg_ne_failedMsg f h f]
      cases dl with
      | some e => exact ⟨rfl, hcnt _ rfl⟩
      | none =>
        cases cv with
        | error e => exact ⟨rfl, hcnt _ rfl⟩
        | ok k =>
          cases up with
          | some e => exact ⟨rfl, hcnt _ rfl⟩
          | none => simp [processFile] at hFail
    · intro hOk
      cases dl with
      | some e => simp [processFile] at hOk
      | none =>
        cases cv with
        | error e => simp [processFile] at hOk
        | ok k =>
          cases up with
          | some e => simp [processFile] at hOk
          | none =>
            refine ⟨k, rfl, rfl, ?_, ?_⟩
            · simp [processFile, List.count_cons,
                (doneMsg_ne_processingMsg (Base k) f h).symm]
            · simp [processFile, List.count_cons, processingMsg_ne_failedMsg f h f,
                doneMsg_ne_failedMsg (Base k) f]

/-- C3 (witness): at a concrete failing conversion, the amended theorem
yields exactly one "failed" message naming `novel.epub`. -/
theorem processFile_status_messages_witness :
    (processFile ⟨true, true, none, Except.error "bad", none⟩ "novel.epub" "@b").2.count
      (failedMsg "novel.epub") = 1 :=
  (((processFile_status_messages ⟨true, true, none, Except.error "bad", none⟩
    "novel.epub" "@b").2 rfl rfl).1 rfl).2

/-- Go `strings.ToLower`, as used by config.go and `processDocument`:
lowercase every rune of the string. -/
def ToLower (s : String) : String := ⟨s.data.map Char.toLower⟩

/-- monitor.go `monitoredChat`: per-chat registry value (handle, accepted
format set, bound uploader). The Go `map[string]bool` format set only ever
stores `true` values, so it is embedded as its key list; the uploader is an
opaque identity. -/
structure monitoredChat where
  handle : String
  formats : List String
  uploader : Nat
deriving DecidableEq, Repr

/-- The `tg.DocumentAttributeClass` shapes `processDocument` inspects:
a filename attribute or anything else. -/
inductive DocAttr where
  | filename (name : String)
  | otherAttr
deriving DecidableEq, Repr

/-- The fields of a non-empty `tg.Document` that `processDocument` uses. -/
structure TGDocument where
  attributes : List DocAttr
deriving DecidableEq, Repr

/-- The `msg.Media` shapes `processDocument` distinguishes:
`tg.MessageMediaDocument` (whose inner document may be empty, modelled by
`none` for the failing `AsNotEmpty`) or any other media class. -/
inductive MediaClass where
  | document (doc : Option TGDocument)
  | otherMedia
deriving DecidableEq, Repr

/-- The filename-extraction loop of `processDocument`: the first
`DocumentAttributeFilename`'s name, or `""` when there is none. -/
def firstFileName : List DocAttr → String
  | [] => ""
  | .filename n :: _ => n
  | .otherAttr :: rest => firstFileName rest

/-- monitor.go `processDocument`: ignore non-document media and empty
documents; extract the filename (rejecting silently when absent); reject
when the lowercased extension is not in the chat's accepted-format set;
otherwise increment the in-flight counter and run `processFile`.
Returns (in-flight counter increment, status messages sent). -/
def processDocument (env : PipeEnv) (media : MediaClass) (chat : monitoredChat) :
    Nat × List String :=
  match media with
  | .otherMedia => (0, [])
  | .document none => (0, [])
  | .document (some doc) =>
    let fileName := firstFileName doc.attributes
    if fileName = "" then (0, [])
    else
      let ext := ToLower (Ext fileName)
      if chat.formats.contains ext then (1, (processFile env fileName chat.handle).2)
      else (0, [])

/-- C9: an inbound document whose filename extension (lowercased) is not in
the chat's accepted-format set starts no pipeline task (counter increment 0)
and sends no status message of any kind. -/
theorem processDocument_rejects_unaccepted (env : PipeEnv) (doc : TGDocument)
    (chat : monitoredChat)
    (h : chat.formats.contains (ToLower (Ext (firstFileName doc.attributes))) = false) :
    processDocument env (MediaClass.document (some doc)) chat = (0, []) := by
  have h' : ToLower (Ext (firstFileName doc.attributes)) ∉ chat.formats := by
    simpa using h
  by_cases hf : firstFileName doc.attributes = "" <;> simp [processDocument, hf, h']

/-- C9 (witness): `book.mobi` arriving on a chat accepting only `.epub`
starts nothing and sends nothing. -/
theorem processDocument_rejects_unaccepted_witness :
    processDocument ⟨true, true, none, Except.ok "/c/x.kepub.epub", none⟩
      (MediaClass.document (some ⟨[DocAttr.filename "book.mobi"]⟩))
      ⟨"@ebook-bot", [".epub"], 0⟩ = (0, []) :=
  processDocument_rejects_unaccepted _ _ _ (by decide)

/-- config.go `DropboxConfig`. -/
structure DropboxConfig where
  appKey : String
  appSecret : String
  tokenFile : String
  uploadPath : String
deriving DecidableEq, Repr

/-- config.go `StorageConfig`. -/
structure StorageConfig where
  type : String
  dropbox : DropboxConfig
deriving DecidableEq, Repr

/-- config.go `DefaultsConfig`. -/
structure DefaultsConfig where
  acceptedFormats : List String
  storage : StorageConfig
deriving DecidableEq, Repr

/-- config.go `ChatConfig`; an omitted per-chat format override is the empty
list, an omitted storage override is `none`. -/
structure ChatConfig where
  handle : String
  acceptedFormats : List String
  storage : Option StorageConfig
deriving DecidableEq, Repr

/-- config.go `ResolvedChat`: the fully-merged per-chat configuration; the
accepted-format `map[string]bool` is embedded as its key list. -/
structure ResolvedChat where
  handle : String
  acceptedFormats : List String
  storage : StorageConfig
deriving DecidableEq, Repr

/-- config.go `ResolvedChatConfig`: chat-level formats win when present,
else global defaults; every format string is lowercased into the set; the
storage override is merged field-by-field, empty strings inheriting the
default. -/
def ResolvedChatConfig (defaults : DefaultsConfig) (chat : ChatConfig) : ResolvedChat :=
  let formats :=
    if chat.acceptedFormats.length > 0 then chat.acceptedFormats
    else defaults.acceptedFormats
  let fmtMap := formats.map ToLower
  let storage :=
    match chat.storage with
    | none => defaults.storage
    | some s =>
      { type := if s.type = "" then defaults.storage.type else s.type
        dropbox :=
          { appKey :=
              if s.dropbox.appKey = "" then defaults.storage.dropbox.appKey
              else s.dropbox.appKey
            appSecret :=
              if s.dropbox.appSecret = "" then defaults.storage.dropbox.appSecret
              else s.dropbox.appSecret
            tokenFile :=
              if s.dropbox.tokenFile = "" then defaults.storage.dropbox.tokenFile
              else s.dropbox.tokenFile
            uploadPath :=
              if s.dropbox.uploadPath = "" then defaults.storage.dropbox.uploadPath
              else s.dropbox.uploadPath } }
  { handle := chat.handle, acceptedFormats := fmtMap, storage := storage }

/-- C10: the membership test `processDocument` performs — the lowercased
filename extension looked up in the resolved format set — succeeds exactly
when some configured format string (chat override if present, else the
defaults) lowercases to the lowercased extension, so acceptance is
case-insensitive at both the configuration end and the filename end. -/
theorem accepted_iff_configured (defaults : DefaultsConfig) (chat : ChatConfig)
    (name : String) :
    (ResolvedChatConfig defaults chat).acceptedFormats.contains (ToLower (Ext name)) = true ↔
    ∃ f ∈ (if chat.acceptedFormats.length > 0 then chat.acceptedFormats
           else defaults.acceptedFormats),
      ToLower f = ToLower (Ext name) := by
  simp [ResolvedChatConfig]

/-- The error classes `doUpload` can return: the dedicated
`unauthorizedError` produced for a 401 response, or any other error
(open/request failure or non-OK, non-401 status). -/
inductive UpErr where
  | unauthorized (msg : String)
  | failure (msg : String)
deriving DecidableEq, Repr

/-- dropbox.go `isUnauthorized`: the type assertion against
`*unauthorizedError`. -/
def isUnauthorized : UpErr → Bool
  | .unauthorized _ => true
  | .failure _ => false

/-- The error text an `UpErr` carries (`Error()` on the Go side). -/
def upErrMsg : UpErr → String
  | .unauthorized m => m
  | .failure m => m

/-- Outcomes of the effectful calls one `Upload` run can make: the result of
`doUpload` per attempt index (`none` = HTTP 200), and the result of
`refreshToken` (`none` = success). -/
structure UploadEnv where
  att : Nat → Option UpErr
  refreshErr : Option String

/-- The body of dropbox.go `Upload`'s `for attempt := 0; attempt < 2` loop:
`remaining` is the number of loop iterations left. Returns
(result, number of `doUpload` attempts made, number of `refreshToken`
calls). -/
def uploadAux (env : UploadEnv) : Nat → Nat → Nat → Nat →
    Except String Unit × Nat × Nat
  | _, 0, attempts, refreshes =>
    (.error "dropbox upload failed after multiple retries", attempts, refreshes)
  | attempt, r + 1, attempts, refreshes =>
    match env.att attempt with
    | none => (.ok (), attempts + 1, refreshes)
    | some e =>
      if attempt = 0 ∧ isUnauthorized e then
        match env.refreshErr with
        | some re =>
          (.error ("failed to refresh token, cannot retry upload: " ++ re),
           attempts + 1, refreshes + 1)
        | none => uploadAux env (attempt + 1) r (attempts + 1) (refreshes + 1)
      else (.error (upErrMsg e), attempts + 1, refreshes)

/-- dropbox.go `Upload`: up to two `doUpload` attempts; after a first-attempt
401 the token is refreshed (a refresh failure being terminal) and the
transfer retried once; any other error, or any second-attempt error, is
returned as is. -/
def Upload (env : UploadEnv) : Except String Unit × Nat × Nat :=
  uploadAux env 0 2 0 0

/-- C5: an upload whose first attempt fails with a 401, with the refresh and
the second attempt both succeeding, returns success, makes exactly two
transfer attempts and exactly one refresh call. -/
theorem Upload_retry_after_refresh (m : String) :
    Upload ⟨fun i => if i = 0 then some (UpErr.unauthorized m) else none, none⟩ =
      (Except.ok (), 2, 1) := by
  simp [Upload, uploadAux, isUnauthorized]

/-- C6: (a) an upload whose two attempts both fail with a 401 (the refresh
in between succeeding) returns an error after exactly two transfer attempts
— no third attempt; (b) an upload whose first attempt fails with a
non-authorization error returns that error immediately: one attempt, no
refresh. -/
theorem Upload_terminal_errors (m₁ m₂ m₃ : String) (r : Option String) :
    Upload ⟨fun i => if i = 0 then some (UpErr.unauthorized m₁)
                     else some (UpErr.unauthorized m₂), none⟩ =
      (Except.error m₂, 2, 1) ∧
    Upload ⟨fun _ => some (UpErr.failure m₃), r⟩ =
      (Except.error m₃, 1, 0) := by
  constructor <;> simp [Upload, uploadAux, isUnauthorized, upErrMsg]

/-- dropbox.go `dropboxTokens`: the access/refresh credential pair. -/
structure dropboxTokens where
  accessToken : String
  refreshToken : String
deriving DecidableEq, Repr

/-- The uploader's credential state: the in-memory pair (`d.tokens`) and the
current content of the on-disk token file. -/
structure CredState where
  tokens : dropboxTokens
  disk : dropboxTokens
deriving DecidableEq, Repr

/-- Outcomes of the effectful steps of one `refreshToken` run: request
creation/execution failure, the HTTP status of the token endpoint, the
decoded `access_token` of a 200 response (`none` = decode failure), and the
four persistence steps (temp-file create, encode/write, close, rename). -/
structure RefreshEnv where
  reqErr : Option String
  status : Nat
  statusText : String
  body : String
  decoded : Option String
  createOk : Bool
  writeOk : Bool
  closeOk : Bool
  renameOk : Bool
deriving DecidableEq, Repr

/-- dropbox.go `refreshToken`: call the token endpoint; on a non-OK status
or a decode failure return the error with the state untouched; on success
replace the in-memory access token, then persist the pair
write-temp-then-rename, returning an error (with the temp file removed and
the real file untouched) if any persistence step fails. -/
def refreshToken (env : RefreshEnv) (st : CredState) : Except String Unit × CredState :=
  match env.reqErr with
  | some e => (.error ("failed to execute refresh request: " ++ e), st)
  | none =>
    if env.status ≠ 200 then
      (.error ("token refresh failed with status " ++ env.statusText ++ ": " ++ env.body), st)
    else
      match env.decoded with
      | none => (.error "failed to decode refresh response", st)
      | some newTok =>
        let tokens' : dropboxTokens :=
          { accessToken := newTok, refreshToken := st.tokens.refreshToken }
        let st₁ : CredState := { st with tokens := tokens' }
        if ¬env.createOk then (.error "failed to save refreshed token", st₁)
        else if ¬env.writeOk then (.error "failed to write refreshed token", st₁)
        else if ¬env.closeOk then (.error "failed to close token file", st₁)
        else if ¬env.renameOk then (.error "failed to rename token file", st₁)
        else (.ok (), { st₁ with disk := tokens' })

/-- C2 (counterexample): a refresh whose token-endpoint exchange succeeds
but whose persistence step fails (temp-file creation error) returns an
error, yet the in-memory credential pair has changed: the claim that every
failing refresh leaves the in-memory pair untouched is false. -/
theorem refreshToken_persist_failure_mutates :
    (refreshToken ⟨none, 200, "200 OK", "", some "newtok", false, true, true, true⟩
      ⟨⟨"oldtok", "refresh"⟩, ⟨"oldtok", "refresh"⟩⟩).1 =
      Except.error "failed to save refreshed token" ∧
    (refreshToken ⟨none, 200, "200 OK", "", some "newtok", false, true, true, true⟩
      ⟨⟨"oldtok", "refresh"⟩, ⟨"oldtok", "refresh"⟩⟩).2.tokens ≠ ⟨"oldtok", "refresh"⟩ := by
  constructor
  · rfl
  · decide

/-- C2 (amended): every failing refresh returns the error and leaves the
on-disk token file unchanged; when the failure is in the token-endpoint
exchange (request error, non-OK status, or decode failure) the in-memory
pair is also left unchanged, while when the exchange succeeded with a
decoded token t (so the failure is in persistence) the in-memory refresh
token is unchanged but the in-memory access token has already been replaced
by t. -/
theorem refreshToken_failure_state (env : RefreshEnv) (st : CredState)
    (e : String) (herr : (refreshToken env st).1 = Except.error e) :
    (refreshToken env st).2.disk = st.disk ∧
    ((env.reqErr ≠ none ∨ env.status ≠ 200 ∨ env.decoded = none) →
      (refreshToken env st).2 = st) ∧
    (∀ t, env.reqErr = none → env.status = 200 → env.decoded = some t →
      (refreshToken env st).2.tokens =
        { accessToken := t, refreshToken := st.tokens.refreshToken }) := by
  obtain ⟨req, status, stext, body, dec, c, w, cl, rn⟩ := env
  cases req with
  | some m =>
    refine ⟨rfl, fun _ => rfl, fun t hreq _ _ => ?_⟩
    simp at hreq
  | none =>
    by_cases hs : status ≠ 200
    · refine ⟨?_, fun _ => ?_, fun t _ h200 _ => absurd h200 hs⟩
      · simp [refreshToken, hs]
      · simp [refreshToken, hs]
    · cases dec with
      | none =>
        refine ⟨?_, fun _ => ?_, fun t _ _ hdec => ?_⟩
        · simp [refreshToken, hs]
        · simp [refreshToken, hs]
        · simp at hdec
      | some t =>
        have hcases : ¬((none : Option String) ≠ none ∨ status ≠ 200 ∨
            (some t : Option String) = none) := by
          rintro (h | h | h)
          · simp at h
          · exact hs h
          · simp at h
        cases c with
        | false =>
          refine ⟨?_, fun h => absurd h hcases, fun t' _ _ hdec => ?_⟩
          · simp [refreshToken, hs]
          · injection hdec with ht
            subst ht
            simp [refreshToken, hs]
        | true =>
          cases w with
          | false =>
            refine ⟨?_, fun h => absurd h hcases, fun t' _ _ hdec => ?_⟩
            · simp [refreshToken, hs]
            · injection hdec with ht
              subst ht
              simp [refreshToken, hs]
          | true =>
            cases cl with
            | false =>
              refine ⟨?_, fun h => absurd h hcases, fun t' _ _ hdec => ?_⟩
              · simp [refreshToken, hs]
              · injection hdec with ht
                subst ht
                simp [refreshToken, hs]
            | true =>
              cases rn with
              | false =>
                refine ⟨?_, fun h => absurd h hcases, fun t' _ _ hdec => ?_⟩
                · simp [refreshToken, hs]
                · injection hdec with ht
                  subst ht
                  simp [refreshToken, hs]
              | true =>
                exfalso
                simp [refreshToken, hs] at herr

/-- C2 (witness): the amended theorem applied at a failing rename step:
the on-disk pair is untouched and the in-memory pair now holds the newly
obtained access token with the old refresh token. -/
theorem refreshToken_failure_state_witness :
    (refreshToken ⟨none, 200, "200 OK", "", some "tok2", true, true, true, false⟩
      ⟨⟨"tok1", "r1"⟩, ⟨"tok1", "r1"⟩⟩).2.disk = ⟨"tok1", "r1"⟩ ∧
    (refreshToken ⟨none, 200, "200 OK", "", some "tok2", true, true, true, false⟩
      ⟨⟨"tok1", "r1"⟩, ⟨"tok1", "r1"⟩⟩).2.tokens = ⟨"tok2", "r1"⟩ :=
  ⟨(refreshToken_failure_state ⟨none, 200, "200 OK", "", some "tok2", true, true, true, false⟩
      ⟨⟨"tok1", "r1"⟩, ⟨"tok1", "r1"⟩⟩ "failed to rename token file" rfl).1,
   (refreshToken_failure_state ⟨none, 200, "200 OK", "", some "tok2", true, true, true, false⟩
      ⟨⟨"tok1", "r1"⟩, ⟨"tok1", "r1"⟩⟩ "failed to rename token file" rfl).2.2
     "tok2" rfl rfl rfl⟩

/-- The Monitor's registry `m.peers : map[string]*monitoredChat`, embedded
as an association list with unique keys. -/
def Registry := List (String × monitoredChat)

/-- Go map assignment `m[k] = v`: replace the entry for `k` if present,
otherwise append it. -/
def mapInsert (k : String) (v : monitoredChat) : List (String × monitoredChat) →
    List (String × monitoredChat)
  | [] => [(k, v)]
  | (k', v') :: rest => if k' = k then (k, v) :: rest else (k', v') :: mapInsert k v rest

/-- monitor.go `AddChat`: strip a leading `"@"` from the handle, resolve it
to a peer (an external effect passed in as `resolve`), derive the registry
key via `peerKey`, fail on an unknown peer type, and insert/overwrite the
registry entry. -/
def AddChat (resolve : String → Option Peer) (peers : List (String × monitoredChat))
    (handle : String) (formats : List String) (uploader : Nat) :
    Except String (List (String × monitoredChat)) :=
  let username := if handle.startsWith "@" then handle.drop 1 else handle
  match resolve username with
  | none => .error ("resolving handle " ++ handle)
  | some peer =>
    let key := peerKey peer
    if key = "" then .error ("unexpected peer type for " ++ handle)
    else .ok (mapInsert key ⟨handle, formats, uploader⟩ peers)

/-- monitor.go `RemoveChat`: delete the (single) entry whose stored handle
matches, a no-op when none does. -/
def RemoveChat (peers : List (String × monitoredChat)) (handle : String) :
    List (String × monitoredChat) :=
  match peers with
  | [] => []
  | (k, c) :: rest =>
    if c.handle = handle then rest else (k, c) :: RemoveChat rest handle

lemma peerKey_ne_empty (p : Peer) : peerKey p ≠ "" := by
  cases p <;>
    · intro h
      have h2 := congrArg String.data h
      simp [peerKey, String.data_append] at h2

lemma mapInsert_keys (k : String) (v : monitoredChat) :
    ∀ l : List (String × monitoredChat),
      (mapInsert k v l).map Prod.fst =
        if k ∈ l.map Prod.fst then l.map Prod.fst else l.map Prod.fst ++ [k]
  | [] => by simp [mapInsert]
  | (k', v') :: rest => by
    by_cases hk : k' = k
    · subst hk
      simp [mapInsert]
    · simp only [mapInsert, if_neg hk, List.map_cons, mapInsert_keys k v rest]
      have : (k ∈ k' :: rest.map Prod.fst) ↔ (k ∈ rest.map Prod.fst) := by
        simp [List.mem_cons, Ne.symm hk]
      by_cases hm : k ∈ rest.map Prod.fst
      · simp [hm, this]
      · simp [hm, this]

lemma mapInsert_find (k : String) (v : monitoredChat) :
    ∀ l : List (String × monitoredChat),
      (mapInsert k v l).find? (fun e => e.1 == k) = some (k, v)
  | [] => by simp [mapInsert]
  | (k', v') :: rest => by
    by_cases hk : k' = k
    · subst hk
      simp [mapInsert]
    · simp only [mapInsert, if_neg hk]
      rw [List.find?_cons_of_neg]
      · exact mapInsert_find k v rest
      · simp [hk]

lemma mapInsert_nodup (k : String) (v : monitoredChat)
    (l : List (String × monitoredChat)) (h : (l.map Prod.fst).Nodup) :
    ((mapInsert k v l).map Prod.fst).Nodup := by
  rw [mapInsert_keys]
  by_cases hm : k ∈ l.map Prod.fst
  · simpa [hm] using h
  · simp only [if_neg hm]
    exact List.Nodup.append h (List.nodup_singleton k) (by simpa using hm)

lemma mapInsert_count_self (k : String) (v : monitoredChat)
    (l : List (String × monitoredChat)) (h : (l.map Prod.fst).Nodup) :
    ((mapInsert k v l).map Prod.fst).count k = 1 := by
  rw [mapInsert_keys]
  by_cases hm : k ∈ l.map Prod.fst
  · simp only [if_pos hm]
    exact List.count_eq_one_of_mem h hm
  · simp [if_neg hm, List.count_append, List.count_eq_zero_of_not_mem hm]

/-- C8: registering the same handle twice, with the handle resolving to the
same peer both times, succeeds, leaves exactly one registry entry under the
derived key — the second call's entry, replacing the first — and keeps the
registry free of duplicate keys (no peer identity maps to two entries). -/
theorem AddChat_idempotent (resolve : String → Option Peer)
    (peers : List (String × monitoredChat)) (handle : String)
    (f₁ f₂ : List String) (u₁ u₂ : Nat) (p : Peer)
    (hnd : (peers.map Prod.fst).Nodup)
    (hres : resolve (if handle.startsWith "@" then handle.drop 1 else handle) = some p) :
    ∃ r₁ r₂,
      AddChat resolve peers handle f₁ u₁ = Except.ok r₁ ∧
      AddChat resolve r₁ handle f₂ u₂ = Except.ok r₂ ∧
      (r₂.map Prod.fst).count (peerKey p) = 1 ∧
      (r₂.map Prod.fst).Nodup ∧
      r₂.find? (fun e => e.1 == peerKey p) =
        some (peerKey p, ⟨handle, f₂, u₂⟩) := by
  refine ⟨mapInsert (peerKey p) ⟨handle, f₁, u₁⟩ peers,
          mapInsert (peerKey p) ⟨handle, f₂, u₂⟩
            (mapInsert (peerKey p) ⟨handle, f₁, u₁⟩ peers), ?_, ?_, ?_, ?_, ?_⟩
  · simp [AddChat, hres, peerKey_ne_empty p]
  · simp [AddChat, hres, peerKey_ne_empty p]
  · exact mapInsert_count_self _ _ _ (mapInsert_nodup _ _ _ hnd)
  · exact mapInsert_nodup _ _ _ (mapInsert_nodup _ _ _ hnd)
  · exact mapInsert_find _ _ _

/-- C8 (witness): registering `@kobo` twice against a resolver returning
user 7, starting from the empty registry. -/
theorem AddChat_idempotent_witness :
    ∃ r₁ r₂,
      AddChat (fun _ => some (Peer.user 7)) [] "@kobo" [".epub"] 0 = Except.ok r₁ ∧
      AddChat (fun _ => some (Peer.user 7)) r₁ "@kobo" [".mobi"] 1 = Except.ok r₂ ∧
      (r₂.map Prod.fst).count (peerKey (Peer.user 7)) = 1 ∧
      (r₂.map Prod.fst).Nodup ∧
      r₂.find? (fun e => e.1 == peerKey (Peer.user 7)) =
        some (peerKey (Peer.user 7), ⟨"@kobo", [".mobi"], 1⟩) :=
  AddChat_idempotent (fun _ => some (Peer.user 7)) [] "@kobo" [".epub"] [".mobi"] 0 1
    (Peer.user 7) (by simp) rfl

/-- The accepted-format comparison inside supervisor `chatConfigEqual`:
`reflect.DeepEqual` on two `map[string]bool` sets whose values are always
`true`, i.e. equality of the key sets, embedded as mutual containment of
the key lists. -/
def fmtSetEq (a b : List String) : Bool :=
  a.all (fun f => b.contains f) && b.all (fun f => a.contains f)

/-- supervisor `chatConfigEqual`: storage settings compared first, then the
accepted-format sets. -/
def chatConfigEqual (a b : ResolvedChat) : Bool :=
  decide (a.storage = b.storage) && fmtSetEq a.acceptedFormats b.acceptedFormats

/-- A registry operation the supervisor's reload path performs on the
Monitor: a `RemoveChat` call (`unregister`) or an `addChat`/`AddChat` call
(`register`). -/
inductive RegOp where
  | register (handle : String)
  | unregister (handle : String)
deriving DecidableEq, Repr

/-- The reconciliation diff of supervisor `reload`, operating on the two
handle-keyed resolved chat maps (embedded as lists, handles unique): first
unregister every handle present before but absent now, then walk the new
set — a changed chat is unregistered and re-registered, an unchanged one is
left alone, a new one is registered. Returns the trace of registry
operations in order. -/
def reconcile (oldChats newChats : List ResolvedChat) : List RegOp :=
  let removedOps :=
    (oldChats.filter
      (fun o => !(newChats.any (fun n => n.handle == o.handle)))).map
      (fun o => RegOp.unregister o.handle)
  let changeOps :=
    (newChats.map (fun n =>
      match oldChats.find? (fun o => o.handle == n.handle) with
      | some o =>
        if chatConfigEqual o n then []
        else [RegOp.unregister n.handle, RegOp.register n.handle]
      | none => [RegOp.register n.handle])).flatten
  removedOps ++ changeOps

/-- The configuration fields supervisor `reload` reads: global defaults and
the chat list. -/
structure Config where
  defaults : DefaultsConfig
  chats : List ChatConfig
deriving DecidableEq, Repr

/-- The supervisor state `reload` can touch: the in-memory configuration
snapshot and the uploader cache (embedded as the list of token-file keys it
holds). -/
structure Supervisor where
  cfg : Config
  uploaders : List String
deriving DecidableEq, Repr

/-- supervisor `reload`: re-read the configuration (outcome passed in as
`loadResult`); on a read/parse error log and return with nothing changed;
on success resolve both chat sets, apply the reconciliation diff, extend
the uploader cache with the token-file key of every registered chat not
already cached, and install the new configuration snapshot. Returns the new
supervisor state and the trace of registry operations performed. -/
def reload (s : Supervisor) (loadResult : Except String Config) :
    Supervisor × List RegOp :=
  match loadResult with
  | .error _ => (s, [])
  | .ok newCfg =>
    let oldResolved := s.cfg.chats.map (ResolvedChatConfig s.cfg.defaults)
    let newResolved := newCfg.chats.map (ResolvedChatConfig newCfg.defaults)
    let trace := reconcile oldResolved newResolved
    let regHandles := trace.filterMap
      (fun op => match op with
        | .register h2 => some h2
        | .unregister _ => none)
    let uploaders := regHandles.foldl
      (fun cache h2 =>
        match newResolved.find? (fun c => c.handle == h2) with
        | some rc =>
          if cache.contains rc.storage.dropbox.tokenFile then cache
          else cache ++ [rc.storage.dropbox.tokenFile]
        | none => cache)
      s.uploaders
    ({ cfg := newCfg, uploaders := uploaders }, trace)

/-- C7: a reload whose configuration read or parse fails leaves the
supervisor's configuration snapshot and uploader cache exactly as they
were and performs no registry operation at all (empty operation trace), so
the Monitor's registry is untouched. -/
theorem reload_load_failure_noop (s : Supervisor) (e : String) :
    reload s (Except.error e) = (s, []) := rfl

lemma fmtSetEq_refl (a : List String) : fmtSetEq a a = true := by
  simp [fmtSetEq, List.all_eq_true]

lemma chatConfigEqual_refl (a : ResolvedChat) : chatConfigEqual a a = true := by
  simp [chatConfigEqual, fmtSetEq_refl]

lemma find?_handle_of_mem :
    ∀ (l : List ResolvedChat), (l.map ResolvedChat.handle).Nodup →
      ∀ c ∈ l, l.find? (fun x => x.handle == c.handle) = some c
  | [], _, c, hc => by simp at hc
  | a :: rest, hnd, c, hc => by
    rcases List.mem_cons.mp hc with rfl | hmem
    · exact List.find?_cons_of_pos _ (by simp)
    · rw [List.map_cons] at hnd
      have hndc := List.nodup_cons.mp hnd
      have hne : a.handle ≠ c.handle := by
        intro hEq
        exact hndc.1 (hEq ▸ List.mem_map_of_mem ResolvedChat.handle hmem)
      rw [List.find?_cons_of_neg _ (by simpa using hne)]
      exact find?_handle_of_mem rest hndc.2 c hmem

lemma flatten_single (g : ResolvedChat → List RegOp) (h : String)
    (res : List RegOp) :
    ∀ (l : List ResolvedChat) (n : ResolvedChat),
      (l.map ResolvedChat.handle).Nodup →
      l.find? (fun c => c.handle == h) = some n →
      (∀ c ∈ l, c.handle ≠ h → g c = []) →
      g n = res →
      (l.map g).flatten = res
  | [], n, _, hfind, _, _ => by simp at hfind
  | a :: rest, n, hnd, hfind, hall, hres => by
    rw [List.map_cons] at hnd
    have hndc := List.nodup_cons.mp hnd
    by_cases ha : a.handle = h
    · rw [List.find?_cons_of_pos _ (by simpa using ha)] at hfind
      have han : a = n := by injection hfind
      have hrest : ∀ c ∈ rest, g c = [] := by
        intro c hc
        refine hall c (List.mem_cons_of_mem a hc) ?_
        intro hch
        exact hndc.1 ((ha.trans hch.symm) ▸ List.mem_map_of_mem ResolvedChat.handle hc)
      have : (rest.map g).flatten = [] := by
        rw [List.flatten_eq_nil_iff]
        intro l' hl'
        obtain ⟨c, hc, rfl⟩ := List.mem_map.mp hl'
        exact hrest c hc
      simp [han, this, hres]
    · rw [List.find?_cons_of_neg _ (by simpa using ha)] at hfind
      have hga : g a = [] := hall a (List.mem_cons_self a rest) ha
      have := flatten_single g h res rest n hndc.2 hfind
        (fun c hc => hall c (List.mem_cons_of_mem a hc)) hres
      simp [hga, this]

/-- C4: when the old and new resolved chat sets contain the same handles,
exactly one handle's accepted-format set differs (its storage settings
unchanged) and every other handle resolves identically, the reload diff
performs exactly one unregister followed by exactly one register, both for
that handle, and no registry operation for any other handle: the operation
trace is literally `[unregister h, register h]`. -/
theorem reconcile_format_change (oldChats newChats : List ResolvedChat)
    (h : String) (o n : ResolvedChat)
    (hOldND : (oldChats.map ResolvedChat.handle).Nodup)
    (hNewND : (newChats.map ResolvedChat.handle).Nodup)
    (hO : oldChats.find? (fun c => c.handle == h) = some o)
    (hN : newChats.find? (fun c => c.handle == h) = some n)
    (hFmt : fmtSetEq o.acceptedFormats n.acceptedFormats = false)
    (_hSto : o.storage = n.storage)
    (hSame : ∀ h', h' ≠ h →
      oldChats.find? (fun c => c.handle == h') =
        newChats.find? (fun c => c.handle == h')) :
    reconcile oldChats newChats = [RegOp.unregister h, RegOp.register h] := by
  have hremoved : oldChats.filter
      (fun o' => !(newChats.any (fun n' => n'.handle == o'.handle))) = [] := by
    rw [List.filter_eq_nil_iff]
    intro o' ho'
    suffices hany : newChats.any (fun n' => n'.handle == o'.handle) = true by
      simp [hany]
    rw [List.any_eq_true]
    by_cases hoh : o'.handle = h
    · exact ⟨n, List.mem_of_find?_eq_some hN, by
        have := List.find?_some hN
        simp_all⟩
    · have hfind := find?_handle_of_mem oldChats hOldND o' ho'
      rw [hSame o'.handle hoh] at hfind
      exact ⟨o', List.mem_of_find?_eq_some hfind, by simp⟩
  have hnh : n.handle = h := by
    have := List.find?_some hN
    simpa using this
  have hflat : (newChats.map (fun n' =>
      match oldChats.find? (fun o' => o'.handle == n'.handle) with
      | some o' =>
        if chatConfigEqual o' n' then []
        else [RegOp.unregister n'.handle, RegOp.register n'.handle]
      | none => [RegOp.register n'.handle])).flatten =
      [RegOp.unregister h, RegOp.register h] := by
    refine flatten_single _ h _ newChats n hNewND hN ?_ ?_
    · intro c hc hch
      have hfind := find?_handle_of_mem newChats hNewND c hc
      rw [← hSame c.handle hch] at hfind
      simp [hfind, chatConfigEqual_refl]
    · have hcne : chatConfigEqual o n = false := by
        simp [chatConfigEqual, hFmt]
      simp [hnh, hO, hcne]
  simp [reconcile, hremoved, hflat]

/-- C4 (witness): two two-chat resolved sets differing only in `@b`'s
format set. -/
theorem reconcile_format_change_witness :
    reconcile
      [⟨"@a", [".epub"], ⟨"dropbox", ⟨"k", "s", "/data/dropbox.json", "/Apps/"⟩⟩⟩,
        ⟨"@b", [".epub"], ⟨"dropbox", ⟨"k", "s", "/data/dropbox.json", "/Apps/"⟩⟩⟩]
      [⟨"@a", [".epub"], ⟨"dropbox", ⟨"k", "s", "/data/dropbox.json", "/Apps/"⟩⟩⟩,
        ⟨"@b", [".mobi"], ⟨"dropbox", ⟨"k", "s", "/data/dropbox.json", "/Apps/"⟩⟩⟩] =
      [RegOp.unregister "@b", RegOp.register "@b"] := by
  refine reconcile_format_change _ _ "@b"
    ⟨"@b", [".epub"], ⟨"dropbox", ⟨"k", "s", "/data/dropbox.json", "/Apps/"⟩⟩⟩
    ⟨"@b", [".mobi"], ⟨"dropbox", ⟨"k", "s", "/data/dropbox.json", "/Apps/"⟩⟩⟩
    (by decide) (by decide) (by decide) (by decide) (by decide) (by decide) ?_
  intro h' hne
  by_cases ha : ("@a" : String) = h'
  · rw [List.find?_cons_of_pos _ (by simp [ha]), List.find?_cons_of_pos _ (by simp [ha])]
  · rw [List.find?_cons_of_neg _ (by simpa using ha),
      List.find?_cons_of_neg _ (by simpa using Ne.symm hne),
      List.find?_cons_of_neg _ (by simpa using ha),
      List.find?_cons_of_neg _ (by simpa using Ne.symm hne)]

end Kpub
